import Mathlib

/-!
Verification of the Content-Hash Batch Ledger with Deterministic Valuation
(repository `pewpi-infinity/z`).

Shallow embedding of the core subsystem:
* `src/master_infinity_os_stream.py` — the batch ledger (`finalize_batch_if_ready`);
* `src/build_token.py` — scorer (`score_content`), valuation (`calculate_value`),
  aggregator (`generate_mega_hash`), pending-ingestion buffer (`add_to_buffer`).

Modelling conventions:
* Python floats are modelled as exact numbers (`ℚ`, and `ℝ` where the source
  applies `math.log`); numeric literals are taken at their written value.
* `int(...)` truncation of the non-negative quantities in the scorer is
  modelled as the exact mathematical floor of the corresponding expression.
* Stateful code is modelled by explicit state passing: functions return the
  records they persist together with the successor state.
-/

set_option maxRecDepth 4000

namespace PewpiZ

/-- Modelled from the spec: the SHA-256 digest (`hashlib.sha256(...).hexdigest()`
in the source) is library code outside the repository.  Per §3 of the spec a
collision is "treated as identity", so the digest is modelled as an injective
deterministic function of the input string; the claims use only determinism,
injectivity and the exact structure of the preimage. -/
def sha256 (s : String) : String :=
  "sha256:" ++ s

/-- `build_token.infinity_hash`: SHA-256 over the encoded text. -/
def infinity_hash (text : String) : String :=
  sha256 text

theorem sha256_injective (a b : String) (h : sha256 a = sha256 b) : a = b := by
  have hd : ("sha256:" ++ a).data = ("sha256:" ++ b).data := congrArg String.data h
  simp only [String.data_append] at hd
  exact String.ext (List.append_cancel_left hd)

/-! ## Batch ledger (`master_infinity_os_stream.py`) -/

/-- The persisted stream state (`state` dict in the source): `next_index`,
`batch_index`, `current_batch_hashes`. -/
structure LedgerState where
  next_index : Nat
  batch_index : Nat
  current_batch_hashes : List String
deriving DecidableEq, Repr

/-- The rollup ledger record written by `finalize_batch_if_ready`
(`batch_ledger.json`: `batch_index`, `count`, `major_master_hash`,
`master_hashes`). -/
structure Rollup where
  batch_index : Nat
  count : Nat
  major_master_hash : String
  master_hashes : List String
deriving DecidableEq, Repr

/-- The rollup threshold; the source inlines the literal `1000`. -/
def threshold : Nat := 1000

/-- `master_infinity_os_stream.finalize_batch_if_ready`.  The Python function
mutates `state` in place and writes the ledger record to disk; here it returns
`none` when the batch is not ready (source returns `False`, no mutation), and
otherwise the `Rollup` record it persists together with the successor state:
`batch_hashes = state["current_batch_hashes"][:1000]`,
`major_master = sha256("".join(batch_hashes))`,
then `current_batch_hashes = current_batch_hashes[1000:]` and
`batch_index = batch_index + 1`. -/
def finalize_batch_if_ready (state : LedgerState) : Option (Rollup × LedgerState) :=
  if state.current_batch_hashes.length < 1000 then
    none
  else
    let batch_index := state.batch_index + 1
    let batch_hashes := state.current_batch_hashes.take 1000
    let major_master := sha256 (String.join batch_hashes)
    some ({ batch_index := batch_index
            count := 1000
            major_master_hash := major_master
            master_hashes := batch_hashes },
          { next_index := state.next_index
            batch_index := batch_index
            current_batch_hashes := state.current_batch_hashes.drop 1000 })

/-! ### C1 / C2: rollup behaviour -/

/-- C1: for a ledger state whose pending list has exactly `threshold = 1000`
entries, `finalize_batch_if_ready` performs exactly one rollup: the `Rollup`
record's `master_hashes` is the pending sequence verbatim, its
`major_master_hash` is the hash of the in-order concatenation of those hashes,
the successor state has an empty pending list and `batch_index` incremented by
exactly one; re-running on the successor state produces no further rollup. -/
theorem rollup_at_exact_threshold (s : LedgerState)
    (h : s.current_batch_hashes.length = threshold) :
    finalize_batch_if_ready s = some
      ({ batch_index := s.batch_index + 1
         count := threshold
         major_master_hash := sha256 (String.join s.current_batch_hashes)
         master_hashes := s.current_batch_hashes },
       { next_index := s.next_index
         batch_index := s.batch_index + 1
         current_batch_hashes := [] })
    ∧ finalize_batch_if_ready
        { next_index := s.next_index
          batch_index := s.batch_index + 1
          current_batch_hashes := [] } = none := by
  rw [threshold] at h
  have ht : s.current_batch_hashes.take 1000 = s.current_batch_hashes := by
    rw [← h]; exact List.take_length s.current_batch_hashes
  have hd : s.current_batch_hashes.drop 1000 = [] := by
    rw [← h]; exact List.drop_length s.current_batch_hashes
  constructor
  · rw [finalize_batch_if_ready, if_neg (by rw [h]; omega)]
    rw [ht, hd]
    rfl
  · rw [finalize_batch_if_ready]
    simp

/-- A sample ledger state holding exactly `threshold` pending hashes. -/
def ledgerAtThreshold : LedgerState :=
  { next_index := 7, batch_index := 3, current_batch_hashes := List.replicate 1000 "" }

/-- Witness for `rollup_at_exact_threshold` at a concrete 1000-entry state. -/
theorem rollup_at_exact_threshold_witness :
    finalize_batch_if_ready ledgerAtThreshold = some
      ({ batch_index := 4
         count := threshold
         major_master_hash := sha256 (String.join (List.replicate 1000 ""))
         master_hashes := List.replicate 1000 "" },
       { next_index := 7, batch_index := 4, current_batch_hashes := [] })
    ∧ finalize_batch_if_ready
        { next_index := 7, batch_index := 4, current_batch_hashes := [] } = none :=
  rollup_at_exact_threshold ledgerAtThreshold
    (by show (List.replicate 1000 "").length = threshold
        rw [List.length_replicate]; rfl)

/-- C2 (amended): whenever `finalize_batch_if_ready` performs a rollup, it
consumes exactly the `threshold` oldest entries of the FIFO pending queue and
preserves any excess, in order (`master_hashes ++ remainder` is the original
pending sequence); and provided the state held fewer than `2 * threshold`
pending hashes — as is the case for every state the stream loop produces,
since it appends one hash at a time and finalizes after each append — the
remainder is strictly shorter than `threshold`. -/
theorem rollup_consumes_oldest_entries (s : LedgerState) (r : Rollup)
    (s' : LedgerState)
    (hlen : s.current_batch_hashes.length < 2 * threshold)
    (hf : finalize_batch_if_ready s = some (r, s')) :
    s'.current_batch_hashes.length < threshold
    ∧ r.master_hashes = s.current_batch_hashes.take threshold
    ∧ s'.current_batch_hashes = s.current_batch_hashes.drop threshold
    ∧ r.master_hashes ++ s'.current_batch_hashes = s.current_batch_hashes := by
  rw [threshold] at hlen ⊢
  rw [finalize_batch_if_ready] at hf
  by_cases hc : s.current_batch_hashes.length < 1000
  · rw [if_pos hc] at hf
    exact absurd hf (by simp)
  · rw [if_neg hc] at hf
    injection hf with hpair
    injection hpair with hr hs'
    subst hr hs'
    refine ⟨?_, rfl, rfl, List.take_append_drop 1000 s.current_batch_hashes⟩
    simp only [List.length_drop]
    omega

/-- A sample ledger state holding 1500 pending hashes. -/
def ledgerWithExcess : LedgerState :=
  { next_index := 0, batch_index := 0, current_batch_hashes := List.replicate 1500 "" }

/-- Witness for `rollup_consumes_oldest_entries` at a concrete 1500-entry
state: the rollup takes the 1000 oldest entries and leaves 500 pending. -/
theorem rollup_consumes_oldest_entries_witness :
    (List.replicate 500 "" : List String).length < threshold
    ∧ (List.replicate 1000 "" : List String)
        = ledgerWithExcess.current_batch_hashes.take threshold
    ∧ (List.replicate 500 "" : List String)
        = ledgerWithExcess.current_batch_hashes.drop threshold
    ∧ List.replicate 1000 "" ++ List.replicate 500 ""
        = ledgerWithExcess.current_batch_hashes := by
  have hlen : ledgerWithExcess.current_batch_hashes.length < 2 * threshold := by
    show (List.replicate 1500 "").length < 2 * threshold
    rw [List.length_replicate, threshold]; omega
  have hf : finalize_batch_if_ready ledgerWithExcess = some
      ({ batch_index := 1
         count := 1000
         major_master_hash := sha256 (String.join (List.replicate 1000 ""))
         master_hashes := List.replicate 1000 "" },
       { next_index := 0, batch_index := 1, current_batch_hashes := List.replicate 500 "" }) := by
    rw [finalize_batch_if_ready]
    simp only [ledgerWithExcess]
    rw [List.length_replicate, if_neg (by omega), List.take_replicate, List.drop_replicate]
    norm_num
  exact rollup_consumes_oldest_entries ledgerWithExcess _ _ hlen hf

/-- A sample ledger state holding `2 * threshold` pending hashes. -/
def ledgerDouble : LedgerState :=
  { next_index := 0, batch_index := 0, current_batch_hashes := List.replicate 2000 "" }

/-- Counterexample to C2 as stated: from a ledger state holding
`2 * threshold` pending hashes, the rollup operation leaves exactly
`threshold` entries pending, so `len(pending_hashes) < threshold` does not
hold immediately after the rollup. -/
theorem rollup_invariant_counterexample :
    finalize_batch_if_ready ledgerDouble = some
      ({ batch_index := 1
         count := 1000
         major_master_hash := sha256 (String.join (List.replicate 1000 ""))
         master_hashes := List.replicate 1000 "" },
       { next_index := 0, batch_index := 1, current_batch_hashes := List.replicate 1000 "" })
    ∧ ¬ (List.replicate 1000 "" : List String).length < threshold := by
  constructor
  · rw [finalize_batch_if_ready]
    simp only [ledgerDouble]
    rw [List.length_replicate, if_neg (by omega), List.take_replicate, List.drop_replicate]
    norm_num
  · rw [List.length_replicate, threshold]; omega

/-! ## Valuation schedule (`build_token.calculate_value`) -/

/-- `build_token.MIN_VALUE`. -/
def MIN_VALUE : ℚ := 90

/-- `build_token.MAX_VALUE` (`964_590_650_869_860_860.97`), at its written
value. -/
def MAX_VALUE : ℚ := 964590650869860860.97

/-- `build_token.calculate_value`.  Python float arithmetic is modelled
exactly: scores are rationals (every Python float is), and the final band —
the only one using the transcendental `math.log(score, 10)` — is modelled
over `ℝ` with the exact base-10 logarithm. -/
noncomputable def calculate_value (score : ℚ) : ℝ :=
  if score < 100 then ((MIN_VALUE + score * 0.5 : ℚ) : ℝ)
  else if score < 500 then ((100 + score * 2 : ℚ) : ℝ)
  else if score < 2000 then ((1000 + score * 10 : ℚ) : ℝ)
  else if score < 10000 then ((20000 + score * 100 : ℚ) : ℝ)
  else if score < 100000 then ((1000000 + score * 5000 : ℚ) : ℝ)
  else if score < 1000000 then ((500000000 + score * 100000 : ℚ) : ℝ)
  else
    min (100000000000 + (Real.logb 10 (score : ℝ) * 100000000000) * ((score : ℝ) / 1000000))
      ((MAX_VALUE : ℚ) : ℝ)

/-- The band of the valuation schedule that fires for a given score, numbered
from the lowest (`1` for `score < 100`, `2` for `score < 500`, …, `7` for the
final logarithmic band), following the branch order of `calculate_value`. -/
def valueBand (score : ℚ) : Nat :=
  if score < 100 then 1
  else if score < 500 then 2
  else if score < 2000 then 3
  else if score < 10000 then 4
  else if score < 100000 then 5
  else if score < 1000000 then 6
  else 7

/-- C3: the code violates the documented floor.  `calculate_value`'s own
docstring states "Range: $90 - $964,590,650,869,860,860.97", and the spec
requires `value(score) >= MIN_VALUE` (never zero or negative) for every
`score <= 0`; but the first band applies `MIN_VALUE + score * 0.5` with no
lower clamp, so the score `-200` yields the value `-10`: negative, and below
the floor `90`. -/
theorem calculate_value_negative_score_bug :
    calculate_value (-200) = ((-10 : ℚ) : ℝ)
    ∧ calculate_value (-200) < ((MIN_VALUE : ℚ) : ℝ)
    ∧ calculate_value (-200) < 0 := by
  have h : calculate_value (-200) = ((-10 : ℚ) : ℝ) := by
    rw [calculate_value, if_pos (by norm_num)]
    norm_num [MIN_VALUE]
  refine ⟨h, ?_, ?_⟩ <;> rw [h] <;> norm_num [MIN_VALUE]

/-- C5: for every score — including arbitrarily large and negative ones —
`calculate_value` never exceeds the configured global maximum `MAX_VALUE`. -/
theorem calculate_value_le_max (score : ℚ) :
    calculate_value score ≤ ((MAX_VALUE : ℚ) : ℝ) := by
  rw [calculate_value]
  split_ifs with h1 h2 h3 h4 h5 h6
  · have : (score : ℝ) < 100 := by exact_mod_cast h1
    push_cast
    rw [MIN_VALUE, MAX_VALUE]; push_cast; linarith
  · have : (score : ℝ) < 500 := by exact_mod_cast h2
    push_cast
    rw [MAX_VALUE]; push_cast; linarith
  · have : (score : ℝ) < 2000 := by exact_mod_cast h3
    push_cast
    rw [MAX_VALUE]; push_cast; linarith
  · have : (score : ℝ) < 10000 := by exact_mod_cast h4
    push_cast
    rw [MAX_VALUE]; push_cast; linarith
  · have : (score : ℝ) < 100000 := by exact_mod_cast h5
    push_cast
    rw [MAX_VALUE]; push_cast; linarith
  · have : (score : ℝ) < 1000000 := by exact_mod_cast h6
    push_cast
    rw [MAX_VALUE]; push_cast; linarith
  · exact min_le_right _ _

/-- The first six bands of `calculate_value`, as a rational function.  For
`score < 1000000` this coincides with `calculate_value`
(`calculate_value_rat_bands` below); it exists so the band arithmetic can be
done in `ℚ`. -/
def rat_calculate_value (score : ℚ) : ℚ :=
  if score < 100 then MIN_VALUE + score * 0.5
  else if score < 500 then 100 + score * 2
  else if score < 2000 then 1000 + score * 10
  else if score < 10000 then 20000 + score * 100
  else if score < 100000 then 1000000 + score * 5000
  else 500000000 + score * 100000

theorem calculate_value_rat_bands (s : ℚ) (hs : s < 1000000) :
    calculate_value s = ((rat_calculate_value s : ℚ) : ℝ) := by
  rw [calculate_value, rat_calculate_value]
  split_ifs <;> first | rfl | (exfalso; linarith)

theorem calculate_value_log_band (s : ℚ) (hs : ¬ s < 1000000) :
    calculate_value s =
      min (100000000000 + (Real.logb 10 (s : ℝ) * 100000000000) * ((s : ℝ) / 1000000))
        ((MAX_VALUE : ℚ) : ℝ) := by
  rw [calculate_value]
  split_ifs <;> first | rfl | (exfalso; linarith)

theorem rat_calculate_value_mono (s1 s2 : ℚ) (h : s1 ≤ s2) :
    rat_calculate_value s1 ≤ rat_calculate_value s2 := by
  rw [rat_calculate_value, rat_calculate_value, MIN_VALUE]
  split_ifs <;> linarith

theorem rat_calculate_value_le (s : ℚ) (hs : s < 1000000) :
    rat_calculate_value s ≤ 700000000000 := by
  rw [rat_calculate_value, MIN_VALUE]
  split_ifs <;> linarith

theorem logb_ten_ge_six (s : ℚ) (hs : ¬ s < 1000000) :
    (6 : ℝ) ≤ Real.logb 10 (s : ℝ) := by
  have hs' : (1000000 : ℝ) ≤ (s : ℝ) := by exact_mod_cast not_lt.mp hs
  rw [Real.le_logb_iff_rpow_le (by norm_num) (by linarith)]
  rw [show ((6 : ℝ)) = ((6 : ℕ) : ℝ) by norm_num, Real.rpow_natCast]
  norm_num
  linarith

theorem calculate_value_log_band_ge (s : ℚ) (hs : ¬ s < 1000000) :
    (700000000000 : ℝ) ≤
      min (100000000000 + (Real.logb 10 (s : ℝ) * 100000000000) * ((s : ℝ) / 1000000))
        ((MAX_VALUE : ℚ) : ℝ) := by
  have hs' : (1000000 : ℝ) ≤ (s : ℝ) := by exact_mod_cast not_lt.mp hs
  have h6 := logb_ten_ge_six s hs
  have h1 : (1 : ℝ) ≤ (s : ℝ) / 1000000 := by
    rw [le_div_iff (by norm_num)]; linarith
  refine le_min ?_ ?_
  · have hp : (6 : ℝ) * 1 ≤ Real.logb 10 (s : ℝ) * ((s : ℝ) / 1000000) :=
      mul_le_mul h6 h1 (by norm_num) (by linarith)
    nlinarith [hp]
  · rw [MAX_VALUE]; push_cast; norm_num

theorem calculate_value_log_band_mono (s1 s2 : ℚ) (h : s1 ≤ s2)
    (h1 : ¬ s1 < 1000000) :
    min (100000000000 + (Real.logb 10 (s1 : ℝ) * 100000000000) * ((s1 : ℝ) / 1000000))
        ((MAX_VALUE : ℚ) : ℝ)
      ≤ min (100000000000 + (Real.logb 10 (s2 : ℝ) * 100000000000) * ((s2 : ℝ) / 1000000))
        ((MAX_VALUE : ℚ) : ℝ) := by
  have hs1 : (1000000 : ℝ) ≤ (s1 : ℝ) := by exact_mod_cast not_lt.mp h1
  have hc : (s1 : ℝ) ≤ (s2 : ℝ) := by exact_mod_cast h
  have hl1 : (0 : ℝ) ≤ Real.logb 10 (s1 : ℝ) :=
    Real.logb_nonneg (by norm_num) (by linarith)
  have hll : Real.logb 10 (s1 : ℝ) ≤ Real.logb 10 (s2 : ℝ) :=
    Real.logb_le_logb_of_le (by norm_num) (by linarith) hc
  refine min_le_min (add_le_add_left ?_ _) le_rfl
  exact mul_le_mul (mul_le_mul_of_nonneg_right hll (by norm_num))
    (by linarith) (by linarith) (mul_nonneg (le_trans hl1 hll) (by norm_num))

/-- C4: the valuation schedule is monotone — for every pair of scores
`s1 ≤ s2`, `calculate_value s1 ≤ calculate_value s2`, across all band
boundaries, including the transition into the final
logarithmic-times-linear band. -/
theorem calculate_value_monotone (s1 s2 : ℚ) (h : s1 ≤ s2) :
    calculate_value s1 ≤ calculate_value s2 := by
  by_cases h2 : s2 < 1000000
  · have h1 : s1 < 1000000 := lt_of_le_of_lt h h2
    rw [calculate_value_rat_bands s1 h1, calculate_value_rat_bands s2 h2, Rat.cast_le]
    exact rat_calculate_value_mono s1 s2 h
  · by_cases h1 : s1 < 1000000
    · rw [calculate_value_rat_bands s1 h1, calculate_value_log_band s2 h2]
      refine le_trans ?_ (calculate_value_log_band_ge s2 h2)
      exact_mod_cast le_trans (rat_calculate_value_le s1 h1) (by norm_num)
    · rw [calculate_value_log_band s1 h1, calculate_value_log_band s2 h2]
      exact calculate_value_log_band_mono s1 s2 h h1

/-- Witness for `calculate_value_monotone` at the concrete pair `3 ≤ 5`. -/
theorem calculate_value_monotone_witness :
    calculate_value 3 ≤ calculate_value 5 :=
  calculate_value_monotone 3 5 (by norm_num)

/-! ## Scorer (`build_token.score_content`)

Python string operations are modelled over the character list (`String.data`):
`str.lower` as `Char.toLower` on each character, `str.split()` as splitting at
whitespace characters and discarding empty fragments, `str.split('\n')` as
splitting at newlines keeping empty fragments, and
`re.findall(r'\b<kw>\b', text)` as counting the positions where the keyword
occurs with a non-word character (or the text edge) on both sides — for the
all-word-character keywords of `BOOST_KEYWORDS` these matches cannot overlap,
so the position count equals the `findall` count. -/

/-- A word character in the sense of the regex `\b` boundary
(`[a-zA-Z0-9_]`; the ASCII fragment of Python's Unicode `\w`). -/
def isWordChar (c : Char) : Bool := c.isAlphanum || c = '_'

/-- Is the character before the current position (none at the start of the
text) a `\b` boundary for a match beginning here? -/
def prevIsBoundary : Option Char → Bool
  | none => true
  | some p => !isWordChar p

/-- Does `\b kw \b` match at the head of `s` (given the boundary before the
head is already checked)? -/
def kwMatchHere (kw s : List Char) : Bool :=
  List.isPrefixOf kw s &&
    (match s.drop kw.length with
     | [] => true
     | c :: _ => !isWordChar c)

/-- Count the positions of `s` at which `\b kw \b` matches, tracking the
previous character. -/
def countOccAux (kw : List Char) : Option Char → List Char → Nat
  | _, [] => 0
  | prev, c :: rest =>
      (if prevIsBoundary prev && kwMatchHere kw (c :: rest) then 1 else 0)
      + countOccAux kw (some c) rest

/-- `len(re.findall(r'\b' + re.escape(keyword) + r'\b', text))` for the
(all-word-character) keywords of the boost table. -/
def count_occurrences (keyword text : List Char) : Nat :=
  countOccAux keyword none text

/-- Split a character list at every separator character, keeping empty
fragments (the semantics of Python's `str.split('\n')`). -/
def splitChar (sep : Char → Bool) : List Char → List (List Char)
  | [] => [[]]
  | c :: rest =>
      if sep c then [] :: splitChar sep rest
      else
        match splitChar sep rest with
        | [] => [[c]]
        | w :: ws => (c :: w) :: ws

/-- `build_token.BOOST_KEYWORDS`, in source order. -/
def BOOST_KEYWORDS : List (String × Nat) :=
  [("quantum", 500), ("hydrogen", 500), ("fusion", 500), ("einstein", 500),
   ("relativity", 500), ("infinity", 500), ("neural", 450), ("photon", 450),
   ("plasma", 450), ("electron", 450),
   ("vector", 300), ("tensor", 300), ("gravity", 300), ("reactor", 300),
   ("lattice", 300), ("thermodynamics", 300), ("entropy", 300),
   ("ai", 150), ("algorithm", 150), ("compute", 150), ("research", 150),
   ("discovery", 150), ("patent", 150), ("proprietary", 150),
   ("data", 75), ("analysis", 75), ("model", 75), ("theory", 75),
   ("experiment", 75),
   ("kris", 10000), ("pewpi", 10000), ("hydra", 8000), ("osprey", 8000),
   ("classified", 15000), ("secret", 12000)]

/-- The `analysis` breakdown record built by `score_content`
(`keyword_matches` lists `(keyword, count, bonus)` for each matched
keyword, in table order). -/
structure Analysis where
  word_count : Nat
  char_count : Nat
  keyword_matches : List (String × Nat × Nat)
  depth_bonus : Nat
  complexity_bonus : Nat
deriving DecidableEq, Repr

/-- `build_token.score_content`.  The two float truncations are modelled as
exact floors: `int(math.log(char_count, 2) * 100)` is
`Nat.log 2 (char_count ^ 100)` (the exact `⌊100·log₂ char_count⌋`), and
`int((unique_words / word_count) * 1000)` is
`unique_words * 1000 / word_count` in natural division. -/
def score_content (text : String) : ℚ × Analysis :=
  let text_lower := text.data.map Char.toLower
  let words := (splitChar Char.isWhitespace text_lower).filter (fun w => w ≠ [])
  let char_count := text.data.length
  let word_count := words.length
  let kw := BOOST_KEYWORDS.foldl
    (fun acc kb =>
      let count := count_occurrences kb.1.data text_lower
      if count > 0 then (acc.1 + count * kb.2, acc.2 ++ [(kb.1, count, count * kb.2)])
      else acc)
    ((0 : Nat), ([] : List (String × Nat × Nat)))
  let depth := if char_count > 100 then Nat.log 2 (char_count ^ 100) else 0
  let complexity := if word_count > 0 then words.dedup.length * 1000 / word_count else 0
  let lines := splitChar (fun c => c = '\n') text.data
  let line_count := lines.length
  let structure_bonus := if line_count > 5 then line_count * 10 else 0
  ((char_count : ℚ) * 0.5 + (word_count : ℚ) * 2 + (kw.1 : ℚ) + (depth : ℚ)
      + (complexity : ℚ) + (structure_bonus : ℚ),
   { word_count := word_count
     char_count := char_count
     keyword_matches := kw.2
     depth_bonus := depth
     complexity_bonus := complexity })

theorem quantum_score_value : (score_content "quantum quantum quantum").1 = 3701 / 2 := by
  show ((23 : ℕ) : ℚ) * 0.5 + ((3 : ℕ) : ℚ) * 2 + ((1500 : ℕ) : ℚ) + ((0 : ℕ) : ℚ)
      + ((333 : ℕ) : ℚ) + ((0 : ℕ) : ℚ) = 3701 / 2
  push_cast
  norm_num

/-- C9 (counterexample): the text `"quantum quantum quantum"` scores
`23·0.5 + 3·2 + 3·500 + 333 = 1850.5`, which falls in the third band of the
valuation schedule (`500 ≤ score < 2000`), not the second-lowest band
(`100 ≤ score < 500`) required by the claim. -/
theorem quantum_second_band_counterexample :
    valueBand (score_content "quantum quantum quantum").1 = 3
    ∧ valueBand (score_content "quantum quantum quantum").1 ≠ 2 := by
  have hb : valueBand (score_content "quantum quantum quantum").1 = 3 := by
    rw [quantum_score_value, valueBand, if_neg (by norm_num), if_neg (by norm_num),
      if_pos (by norm_num)]
  exact ⟨hb, by rw [hb]; norm_num⟩

/-- C9 (amended): scoring `"quantum quantum quantum"` yields a breakdown whose
`quantum` entry records 3 word-boundary occurrences with a keyword bonus of
exactly 1500 (hence at least 1500), a total score of `1850.5`, and the value
for that score falls in the third-lowest band of the valuation schedule
(`500 ≤ score < 2000`), the band `1000 + score * 10`. -/
theorem quantum_scoring_example :
    (score_content "quantum quantum quantum").2.keyword_matches.lookup "quantum"
        = some (3, 1500)
    ∧ (score_content "quantum quantum quantum").1 = 3701 / 2
    ∧ valueBand (score_content "quantum quantum quantum").1 = 3 := by
  refine ⟨by decide, quantum_score_value, ?_⟩
  rw [quantum_score_value, valueBand, if_neg (by norm_num), if_neg (by norm_num),
    if_pos (by norm_num)]

/-! ## Aggregator (`build_token.generate_mega_hash`) -/

theorem string_empty_append (s : String) : "" ++ s = s :=
  String.ext (by simp [String.data_append])

theorem string_append_empty (s : String) : s ++ "" = s :=
  String.ext (by simp [String.data_append])

theorem string_append_assoc (a b c : String) : (a ++ b) ++ c = a ++ (b ++ c) :=
  String.ext (by simp [String.data_append])

theorem string_append_cancel_left (a b c : String) (h : a ++ b = a ++ c) :
    b = c := by
  have hd : (a ++ b).data = (a ++ c).data := congrArg String.data h
  simp only [String.data_append] at hd
  exact String.ext (List.append_cancel_left hd)

theorem string_append_cancel_right (a b c : String) (h : a ++ c = b ++ c) :
    a = b := by
  have hd : (a ++ c).data = (b ++ c).data := congrArg String.data h
  simp only [String.data_append] at hd
  exact String.ext (List.append_cancel_right hd)

/-- One persisted token file in `TOKENS_DIR`, restricted to the fields
`generate_mega_hash` reads (`data.get("raw_text", "")`,
`data.get("score", 0)`). -/
structure TokenData where
  raw_text : String
  score : ℚ
deriving DecidableEq, Repr

/-- The token store (`TOKENS_DIR`): an association of token hash to persisted
token data; `lookup` models the `os.path.exists` check plus `json.load`. -/
abbrev TokenStore := List (String × TokenData)

/-- The member-loading loop of `generate_mega_hash`: starting from
`combined_text = ""` and `total_score = 0`, each resolvable member appends
`raw_text + "\n---\n"` to the text and adds its score; unresolvable members
are skipped.  (The loop also collects `token_data`, which the source never
uses afterwards; it is omitted.) -/
def combined_parts (store : TokenStore) (token_hashes : List String) : String × ℚ :=
  token_hashes.foldl
    (fun acc th =>
      match store.lookup th with
      | some data => (acc.1 ++ data.raw_text ++ "\n---\n", acc.2 + data.score)
      | none => acc)
    ("", 0)

/-- The mega token record written by `generate_mega_hash` (fields
`value_formatted` and `vector`, derived presentation data, and the constant
`type` are omitted).  The source hashes
`combined_text + str(datetime.now(utc)) + "MEGA"` and separately stamps
`get_timestamp()`; both clock reads are modelled by the explicit `now`
argument. -/
structure MegaToken where
  mega_hash : String
  component_hashes : List String
  component_count : Nat
  description : String
  timestamp : String
  combined_score : ℚ
  value : ℚ
deriving DecidableEq, Repr

/-- `build_token.generate_mega_hash`.  Returns the error dict
(`{"error": ...}`) as `Except.error` — the source returns it before touching
any state — and otherwise the mega token it persists. -/
def generate_mega_hash (store : TokenStore) (token_hashes : List String)
    (description : String) (now : String) : Except String MegaToken :=
  if token_hashes.length < 2 then
    Except.error "Need at least 2 tokens to create a mega hash"
  else
    let parts := combined_parts store token_hashes
    let mega_hash := infinity_hash (parts.1 ++ now ++ "MEGA")
    let combination_bonus : ℚ := (token_hashes.length : ℚ) * 1000000
    let synergy_bonus : ℚ := (token_hashes.length : ℚ) ^ 3 * 10000000
    let mega_score := parts.2 + combination_bonus + synergy_bonus
    let mega_value := min (963000000000 + (mega_score / 1000) * 1000000000) MAX_VALUE
    Except.ok
      { mega_hash := mega_hash
        component_hashes := token_hashes
        component_count := token_hashes.length
        description := description
        timestamp := now
        combined_score := mega_score
        value := mega_value }

/-- The file writes performed for a `generate_mega_hash` result: the error
path writes nothing, the success path writes exactly the mega token, under
the `MEGA_` namespace prefix (`MEGA_{mega_hash}.json`). -/
def mega_writes (result : Except String MegaToken) : List (String × MegaToken) :=
  match result with
  | Except.error _ => []
  | Except.ok m => [("MEGA_" ++ m.mega_hash ++ ".json", m)]

theorem generate_mega_hash_ok (store : TokenStore) (l : List String)
    (d now : String) (h : 2 ≤ l.length) :
    generate_mega_hash store l d now = Except.ok
      { mega_hash := infinity_hash ((combined_parts store l).1 ++ now ++ "MEGA")
        component_hashes := l
        component_count := l.length
        description := d
        timestamp := now
        combined_score := (combined_parts store l).2 + (l.length : ℚ) * 1000000
            + (l.length : ℚ) ^ 3 * 10000000
        value := min (963000000000 + (((combined_parts store l).2
            + (l.length : ℚ) * 1000000 + (l.length : ℚ) ^ 3 * 10000000) / 1000)
            * 1000000000) MAX_VALUE } := by
  rw [generate_mega_hash, if_neg (by omega)]

/-- C7: calling the aggregator with fewer than 2 member ids returns the
`NeedMoreItems` validation error to the caller and performs no state change:
no mega token record is written. -/
theorem mega_hash_needs_two (store : TokenStore) (l : List String)
    (d now : String) (h : l.length < 2) :
    generate_mega_hash store l d now
      = Except.error "Need at least 2 tokens to create a mega hash"
    ∧ mega_writes (generate_mega_hash store l d now) = [] := by
  have he : generate_mega_hash store l d now
      = Except.error "Need at least 2 tokens to create a mega hash" := by
    rw [generate_mega_hash, if_pos h]
  exact ⟨he, by rw [he]; rfl⟩

/-- A sample store for the C7 witness. -/
def megaStoreC : TokenStore := [("a", { raw_text := "A", score := 1 })]

/-- Witness for `mega_hash_needs_two` at a concrete single-member call. -/
theorem mega_hash_needs_two_witness :
    generate_mega_hash megaStoreC ["a"] "" "t"
      = Except.error "Need at least 2 tokens to create a mega hash"
    ∧ mega_writes (generate_mega_hash megaStoreC ["a"] "" "t") = [] :=
  mega_hash_needs_two megaStoreC ["a"] "" "t" (by decide)

/-- C6 (amended): `combined_score` is a function of the store and the ordered
member list alone — two calls on the same list agree on it whatever their
descriptions and timestamps; but the mega hash is salted with the call
timestamp, so two calls on the same list produce the same id exactly when
their timestamps coincide; and with the timestamp fixed, a different member
order yields a different id whenever it changes the concatenated member
content. -/
theorem mega_hash_determinism (store : TokenStore) (l1 l2 : List String)
    (d1 d2 now1 now2 : String) (h1 : 2 ≤ l1.length) (h2 : 2 ≤ l2.length) :
    (l1 = l2 →
      (generate_mega_hash store l1 d1 now1).toOption.map MegaToken.combined_score
        = (generate_mega_hash store l2 d2 now2).toOption.map MegaToken.combined_score)
    ∧ (l1 = l2 →
      ((generate_mega_hash store l1 d1 now1).toOption.map MegaToken.mega_hash
          = (generate_mega_hash store l2 d2 now2).toOption.map MegaToken.mega_hash
        ↔ now1 = now2))
    ∧ (now1 = now2 → (combined_parts store l1).1 ≠ (combined_parts store l2).1 →
      (generate_mega_hash store l1 d1 now1).toOption.map MegaToken.mega_hash
        ≠ (generate_mega_hash store l2 d2 now2).toOption.map MegaToken.mega_hash) := by
  rw [generate_mega_hash_ok store l1 d1 now1 h1, generate_mega_hash_ok store l2 d2 now2 h2]
  simp only [Except.toOption, Option.map_some']
  refine ⟨?_, ?_, ?_⟩
  · rintro rfl; rfl
  · rintro rfl
    constructor
    · intro hh
      have hs := sha256_injective _ _ (Option.some.inj hh)
      exact string_append_cancel_left _ _ _
        (string_append_cancel_right _ _ _ hs)
    · rintro rfl; rfl
  · rintro rfl hct hh
    have hs := sha256_injective _ _ (Option.some.inj hh)
    exact hct (string_append_cancel_right _ _ _
      (string_append_cancel_right _ _ _ hs))

/-- A sample store for the C6 theorems. -/
def megaStoreA : TokenStore :=
  [("a", { raw_text := "A", score := 1 }), ("b", { raw_text := "B", score := 2 })]

/-- Witness for `mega_hash_determinism` at concrete calls: same member list
and timestamp but different descriptions agree on `combined_score`; the two
orders of the same two members (same timestamp) get different ids. -/
theorem mega_hash_determinism_witness :
    (generate_mega_hash megaStoreA ["a", "b"] "d1" "t").toOption.map MegaToken.combined_score
      = (generate_mega_hash megaStoreA ["a", "b"] "d2" "t").toOption.map MegaToken.combined_score
    ∧ (generate_mega_hash megaStoreA ["a", "b"] "d" "t").toOption.map MegaToken.mega_hash
      ≠ (generate_mega_hash megaStoreA ["b", "a"] "d" "t").toOption.map MegaToken.mega_hash :=
  ⟨(mega_hash_determinism megaStoreA ["a", "b"] ["a", "b"] "d1" "d2" "t" "t"
      (by decide) (by decide)).1 rfl,
   (mega_hash_determinism megaStoreA ["a", "b"] ["b", "a"] "d" "d" "t" "t"
      (by decide) (by decide)).2.2 rfl (by decide)⟩

/-- Counterexample to C6 as stated: the mega hash is computed over
`combined_text + str(datetime.now(utc)) + "MEGA"`, so two calls on the same
ordered member list made at different clock readings (`"t1"` vs `"t2"`) —
which is what two successive real calls observe — yield different ids. -/
theorem mega_hash_time_salt_counterexample :
    (generate_mega_hash megaStoreA ["a", "b"] "" "t1").toOption.map MegaToken.mega_hash
      ≠ (generate_mega_hash megaStoreA ["a", "b"] "" "t2").toOption.map MegaToken.mega_hash := by
  decide

/-! ### C8: unresolvable members are skipped -/

/-- Following the spec's words: "the subset of members that resolve". -/
def resolvedMembers (store : TokenStore) (l : List String) : List String :=
  l.filter (fun th => (store.lookup th).isSome)

/-- Concatenation of a list of strings. -/
def joinStrings : List String → String
  | [] => ""
  | s :: rest => s ++ joinStrings rest

/-- Following the spec's words: "the content concatenation … computed over
exactly the subset of members that resolve" — each resolved member's
`raw_text` followed by the `"\n---\n"` delimiter, in member order. -/
def specResolvedConcat (store : TokenStore) (l : List String) : String :=
  joinStrings ((resolvedMembers store l).map
    (fun th => ((store.lookup th).getD { raw_text := "", score := 0 }).raw_text ++ "\n---\n"))

/-- Following the spec's words: "the member-score sum … computed over exactly
the subset of members that resolve". -/
def specResolvedScoreSum (store : TokenStore) (l : List String) : ℚ :=
  ((resolvedMembers store l).map
    (fun th => ((store.lookup th).getD { raw_text := "", score := 0 }).score)).sum

theorem combined_parts_acc (store : TokenStore) (l : List String) :
    ∀ (a : String) (q : ℚ),
      l.foldl
        (fun acc th =>
          match store.lookup th with
          | some data => (acc.1 ++ data.raw_text ++ "\n---\n", acc.2 + data.score)
          | none => acc)
        (a, q)
      = (a ++ specResolvedConcat store l, q + specResolvedScoreSum store l) := by
  induction l with
  | nil =>
      intro a q
      simp only [List.foldl_nil, specResolvedConcat, specResolvedScoreSum,
        resolvedMembers, List.filter_nil, List.map_nil, joinStrings, List.sum_nil]
      rw [string_append_empty, add_zero]
  | cons th rest ih =>
      intro a q
      cases hl : store.lookup th with
      | some data =>
          simp only [List.foldl_cons, hl]
          rw [ih]
          have hcons : specResolvedConcat store (th :: rest)
              = data.raw_text ++ "\n---\n" ++ specResolvedConcat store rest := by
            simp [specResolvedConcat, resolvedMembers, List.filter_cons, hl, joinStrings]
          have hsum : specResolvedScoreSum store (th :: rest)
              = data.score + specResolvedScoreSum store rest := by
            simp [specResolvedScoreSum, resolvedMembers, List.filter_cons, hl]
          rw [hcons, hsum, Prod.mk.injEq]
          exact ⟨by rw [string_append_assoc a, string_append_assoc a], by rw [add_assoc]⟩
      | none =>
          simp only [List.foldl_cons, hl]
          rw [ih]
          have hcons : specResolvedConcat store (th :: rest)
              = specResolvedConcat store rest := by
            simp [specResolvedConcat, resolvedMembers, List.filter_cons, hl]
          have hsum : specResolvedScoreSum store (th :: rest)
              = specResolvedScoreSum store rest := by
            simp [specResolvedScoreSum, resolvedMembers, List.filter_cons, hl]
          rw [hcons, hsum]

theorem combined_parts_eq_resolved (store : TokenStore) (l : List String) :
    combined_parts store l
      = (specResolvedConcat store l, specResolvedScoreSum store l) := by
  rw [combined_parts, combined_parts_acc store l "" 0, string_empty_append, zero_add]

/-- C8: with at least 2 member ids, the aggregator never fails on
unresolvable members — the call succeeds, and the mega hash's content
concatenation and its member-score sum range over exactly the subset of
members that resolve in the store (the combination bonuses still use the
full requested member count). -/
theorem mega_hash_skips_unresolved (store : TokenStore) (l : List String)
    (d now : String) (h : 2 ≤ l.length) :
    (generate_mega_hash store l d now).toOption.map MegaToken.mega_hash
      = some (infinity_hash (specResolvedConcat store l ++ now ++ "MEGA"))
    ∧ (generate_mega_hash store l d now).toOption.map MegaToken.combined_score
      = some (specResolvedScoreSum store l + (l.length : ℚ) * 1000000
          + (l.length : ℚ) ^ 3 * 10000000) := by
  rw [generate_mega_hash_ok store l d now h]
  simp only [Except.toOption, Option.map_some']
  rw [combined_parts_eq_resolved]
  exact ⟨rfl, rfl⟩

/-- A sample store for the C8 witness: `"missing"` resolves to nothing. -/
def megaStoreB : TokenStore :=
  [("a", { raw_text := "A", score := 1 }), ("b", { raw_text := "B", score := 2 })]

/-- Witness for `mega_hash_skips_unresolved` at a concrete call in which the
middle member id does not resolve. -/
theorem mega_hash_skips_unresolved_witness :
    (generate_mega_hash megaStoreB ["a", "missing", "b"] "" "t").toOption.map MegaToken.mega_hash
      = some (infinity_hash (specResolvedConcat megaStoreB ["a", "missing", "b"] ++ "t" ++ "MEGA"))
    ∧ (generate_mega_hash megaStoreB ["a", "missing", "b"] "" "t").toOption.map MegaToken.combined_score
      = some (specResolvedScoreSum megaStoreB ["a", "missing", "b"] + ((3 : ℕ) : ℚ) * 1000000
          + ((3 : ℕ) : ℚ) ^ 3 * 10000000) :=
  mega_hash_skips_unresolved megaStoreB ["a", "missing", "b"] "" "t" (by decide)

/-! ## Pending-ingestion buffer (`build_token.add_to_buffer`) -/

/-- `build_token.add_to_buffer`: the session buffer's `pending` list gains the
token hash only when it is not already present. -/
def add_to_buffer (pending : List String) (token_hash : String) : List String :=
  if token_hash ∈ pending then pending else pending ++ [token_hash]

/-- C10: registering a hash in the pending-ingestion buffer is idempotent —
adding a hash already in the `pending` list leaves the list unchanged — and
consequently a `pending` list without duplicates never acquires one. -/
theorem add_to_buffer_idempotent (pending : List String) (token_hash : String) :
    (token_hash ∈ pending → add_to_buffer pending token_hash = pending)
    ∧ (pending.Nodup → (add_to_buffer pending token_hash).Nodup) := by
  constructor
  · intro h
    rw [add_to_buffer, if_pos h]
  · intro h
    by_cases hm : token_hash ∈ pending
    · rw [add_to_buffer, if_pos hm]; exact h
    · rw [add_to_buffer, if_neg hm]
      simp [List.nodup_append, h, hm]

/-- Witness for `add_to_buffer_idempotent`: re-adding `"a"` leaves the
buffer unchanged, and adding fresh `"c"` keeps it duplicate-free. -/
theorem add_to_buffer_idempotent_witness :
    add_to_buffer ["a", "b"] "a" = ["a", "b"]
    ∧ (add_to_buffer ["a", "b"] "c").Nodup :=
  ⟨(add_to_buffer_idempotent ["a", "b"] "a").1 (by decide),
   (add_to_buffer_idempotent ["a", "b"] "c").2 (by decide)⟩

end PewpiZ
